import Mathlib

/-!
Verification of the opengsq-node A2S query engine (`src/source.ts`,
`src/lib/buffer-reader.ts`).

Buffers are modelled as `List Nat` of byte values; the Node `Buffer` reads
that bounds-check (and throw `RangeError` past the end) are modelled as
`Option`-returning functions.  The query orchestrator (`Source.get` and its
`onMessage` datagram handler) is modelled as a fuelled state machine over an
explicit `QState` record; the external `seek-bzip` decompressor and the
`crc-32` checksum are abstract function parameters.
-/

namespace OpenGSQ

/-- A raw octet sequence (a Node `Buffer`). -/
abbrev Msg := List Nat

/-- Models `buffer.readUInt8(i)`: `none` models the `RangeError` Node throws past the end. -/
def readUint8At (m : Msg) (i : Nat) : Option Nat := m.get? i

/-- Models `buffer.readUInt16LE(i)`. -/
def readUint16At (m : Msg) (i : Nat) : Option Nat :=
  match m.get? i, m.get? (i+1) with
  | some b0, some b1 => some (b0 + 256 * b1)
  | _, _ => none

/-- Models `buffer.readUInt32LE(i)`. -/
def readUint32At (m : Msg) (i : Nat) : Option Nat :=
  match m.get? i, m.get? (i+1), m.get? (i+2), m.get? (i+3) with
  | some b0, some b1, some b2, some b3 =>
      some (b0 + 256 * b1 + 65536 * b2 + 16777216 * b3)
  | _, _, _, _ => none

/-- Models `buffer.readBigUInt64LE(i)` (value as a natural number). -/
def readUint64At (m : Msg) (i : Nat) : Option Nat :=
  match readUint32At m i, readUint32At m (i+4) with
  | some lo, some hi => some (lo + 4294967296 * hi)
  | _, _ => none

/-- Reinterpret an unsigned 32-bit value as a signed two's-complement integer. -/
def toInt32 (n : Nat) : Int :=
  let r := n % 4294967296
  if r < 2147483648 then (r : Int) else (r : Int) - 4294967296

/-- Reinterpret an unsigned 8-bit value as a signed integer. -/
def toInt8 (n : Nat) : Int :=
  let r := n % 256
  if r < 128 then (r : Int) else (r : Int) - 256

/-- Models `buffer.readInt32LE(i)`. -/
def readInt32At (m : Msg) (i : Nat) : Option Int :=
  (readUint32At m i).map toInt32

/-- Models `BufferReader` (src/lib/buffer-reader.ts): a sequential cursor over a buffer. -/
structure BufferReader where
  buffer : Msg
  offset : Nat
deriving Repr, DecidableEq

/-- Models `BufferReader.byteLength()`. -/
def BufferReader.byteLength (r : BufferReader) : Nat := r.buffer.length

/-- Models `BufferReader.readUint8()`: read a byte, advance the offset by 1. -/
def BufferReader.readUint8 (r : BufferReader) : Option (Nat × BufferReader) :=
  (readUint8At r.buffer r.offset).map fun v => (v, { r with offset := r.offset + 1 })

/-- Models `BufferReader.readInt8()`. -/
def BufferReader.readInt8 (r : BufferReader) : Option (Int × BufferReader) :=
  (readUint8At r.buffer r.offset).map fun v => (toInt8 v, { r with offset := r.offset + 1 })

/-- Models `BufferReader.readUint16()` (little-endian default). -/
def BufferReader.readUint16 (r : BufferReader) : Option (Nat × BufferReader) :=
  (readUint16At r.buffer r.offset).map fun v => (v, { r with offset := r.offset + 2 })

/-- Models `BufferReader.readUint32()` (little-endian default). -/
def BufferReader.readUint32 (r : BufferReader) : Option (Nat × BufferReader) :=
  (readUint32At r.buffer r.offset).map fun v => (v, { r with offset := r.offset + 4 })

/-- Models `BufferReader.readInt32()` (little-endian default). -/
def BufferReader.readInt32 (r : BufferReader) : Option (Int × BufferReader) :=
  (readInt32At r.buffer r.offset).map fun v => (v, { r with offset := r.offset + 4 })

/-- Models `BufferReader.readBigUint64()` (little-endian default). -/
def BufferReader.readBigUint64 (r : BufferReader) : Option (Nat × BufferReader) :=
  (readUint64At r.buffer r.offset).map fun v => (v, { r with offset := r.offset + 8 })

/-- Models `BufferReader.readFloat32()`: the four raw little-endian bytes are kept as an
unsigned 32-bit pattern (no IEEE-754 interpretation is needed by any claim). -/
def BufferReader.readFloat32 (r : BufferReader) : Option (Nat × BufferReader) :=
  (readUint32At r.buffer r.offset).map fun v => (v, { r with offset := r.offset + 4 })

/-- Models `BufferReader.skip(bytes)`: unchecked offset bump. -/
def BufferReader.skip (r : BufferReader) (bytes : Nat) : BufferReader :=
  { r with offset := r.offset + bytes }

/-- Models `BufferReader.getOffset()`. -/
def BufferReader.getOffset (r : BufferReader) : Nat := r.offset

/-- Bytes of a string up to (excluding) the first `0x00`, or the whole list when
there is none: the scan loop of `BufferReader.readString`. -/
def scanString : Msg → Msg
  | [] => []
  | b :: rest => if b = 0 then [] else b :: scanString rest

/-- Models `BufferReader.readString()`: scan forward to the first zero octet (or the end
of the buffer), return the bytes scanned, and advance past the terminator.
Total: the source loop guards `this.offset < this.buffer.length`, so it never
reads out of range and never throws. -/
def BufferReader.readString (r : BufferReader) : Msg × BufferReader :=
  let s := scanString (r.buffer.drop r.offset)
  (s, { r with offset := r.offset + s.length + 1 })

/-- Models `extraData` of `ServerInfo` (source.interface.ts), each field gated by a bit
of the extra-data flag. -/
structure ExtraData where
  port : Option Nat
  steamID : Option Nat
  tvPort : Option Nat
  tvName : Option Msg
  keywords : Option Msg
  gameID : Option Nat
deriving Repr, DecidableEq

/-- Models `mod` block of an Obsolete GoldSource `ServerInfo`. -/
structure ModInfo where
  link : Msg
  downloadLink : Msg
  version : Nat
  size : Nat
  type : Nat
  dll : Nat
deriving Repr, DecidableEq

/-- Models `ServerInfo` (source.interface.ts); strings are kept as their UTF-8 bytes,
single-character codes as the byte value. -/
structure ServerInfo where
  protocol : Nat
  name : Msg
  map : Msg
  folder : Msg
  game : Msg
  players : Nat
  maxPlayers : Nat
  bots : Nat
  serverType : Nat
  environment : Nat
  visibility : Nat
  vac : Nat
  id : Option Nat
  version : Option Msg
  extraData : Option ExtraData
  address : Option Msg
  mod : Option ModInfo
deriving Repr, DecidableEq

/-- Models `PlayerInfo` (source.interface.ts); `duration` keeps the raw float32 bits. -/
structure PlayerInfo where
  index : Nat
  name : Msg
  score : Nat
  duration : Nat
  deaths : Option Nat
  money : Option Nat
deriving Repr, DecidableEq

/-- The typed errors of `Source.get` (rejections and thrown exceptions). -/
inductive QError where
  | timeout
  | retryExhausted
  | invalidHeader
  | unknownResponseType
  | checksumMismatch (expected actual : Int)
  | decompressionError
  | rangeError
deriving Repr, DecidableEq

/-- A decoded result: one of the shapes `parseResponse` can resolve with. -/
inductive Response where
  | info (i : ServerInfo)
  | players (ps : List PlayerInfo)
  | rules (rs : List (Msg × Msg))
deriving Repr, DecidableEq

/-- Extra-data step `if (extraDataFlag & 0x80) info.extraData.port = reader.readUint16()`. -/
def readExtraPort (extraDataFlag : Nat) (ed : ExtraData) (r : BufferReader) :
    Option (ExtraData × BufferReader) :=
  if extraDataFlag &&& 0x80 ≠ 0 then do
    let (p, r) ← r.readUint16
    pure ({ ed with port := some p }, r)
  else pure (ed, r)

/-- Extra-data step `if (extraDataFlag & 0x10) info.extraData.steamID = reader.readBigUint64()`. -/
def readExtraSteamID (extraDataFlag : Nat) (ed : ExtraData) (r : BufferReader) :
    Option (ExtraData × BufferReader) :=
  if extraDataFlag &&& 0x10 ≠ 0 then do
    let (sid, r) ← r.readBigUint64
    pure ({ ed with steamID := some sid }, r)
  else pure (ed, r)

/-- Extra-data step `if (extraDataFlag & 0x40)`: SourceTV port and name. -/
def readExtraTv (extraDataFlag : Nat) (ed : ExtraData) (r : BufferReader) :
    Option (ExtraData × BufferReader) :=
  if extraDataFlag &&& 0x40 ≠ 0 then do
    let (tp, r) ← r.readUint16
    let (tn, r) := r.readString
    pure ({ ed with tvPort := some tp, tvName := some tn }, r)
  else pure (ed, r)

/-- Extra-data step `if (extraDataFlag & 0x20) info.extraData.keywords = reader.readString()`. -/
def readExtraKeywords (extraDataFlag : Nat) (ed : ExtraData) (r : BufferReader) :
    Option (ExtraData × BufferReader) :=
  if extraDataFlag &&& 0x20 ≠ 0 then
    let (kw, r) := r.readString
    pure ({ ed with keywords := some kw }, r)
  else pure (ed, r)

/-- Extra-data step `if (extraDataFlag & 0x01) info.extraData.gameID = reader.readBigUint64()`. -/
def readExtraGameID (extraDataFlag : Nat) (ed : ExtraData) (r : BufferReader) :
    Option (ExtraData × BufferReader) :=
  if extraDataFlag &&& 0x01 ≠ 0 then do
    let (gid, r) ← r.readBigUint64
    pure ({ ed with gameID := some gid }, r)
  else pure (ed, r)

/-- The extra-data block of `parseInfoResponse`: flag byte, then each field
gated by its distinct bit, in source order. -/
def readExtraData (r : BufferReader) : Option ExtraData := do
  let (extraDataFlag, r) ← r.readUint8
  let ed : ExtraData :=
    { port := none, steamID := none, tvPort := none, tvName := none,
      keywords := none, gameID := none }
  let (ed, r) ← readExtraPort extraDataFlag ed r
  let (ed, r) ← readExtraSteamID extraDataFlag ed r
  let (ed, r) ← readExtraTv extraDataFlag ed r
  let (ed, r) ← readExtraKeywords extraDataFlag ed r
  let (ed, _) ← readExtraGameID extraDataFlag ed r
  pure ed

/-- Models `parseInfoResponse` (source.ts): the current-dialect info decoder.  Fields
are read in the fixed source order; the extra-data block is read only when
unread bytes remain. -/
def parseInfoResponse (r : BufferReader) : Option ServerInfo := do
  let (protocol, r) ← r.readUint8
  let (name, r) := r.readString
  let (map, r) := r.readString
  let (folder, r) := r.readString
  let (game, r) := r.readString
  let (id, r) ← r.readUint16
  let (players, r) ← r.readUint8
  let (maxPlayers, r) ← r.readUint8
  let (bots, r) ← r.readUint8
  let (serverType, r) ← r.readUint8
  let (environment, r) ← r.readUint8
  let (visibility, r) ← r.readUint8
  let (vac, r) ← r.readUint8
  let (version, r) := r.readString
  let base : ServerInfo :=
    { protocol := protocol, name := name, map := map, folder := folder,
      game := game, players := players, maxPlayers := maxPlayers, bots := bots,
      serverType := serverType, environment := environment,
      visibility := visibility, vac := vac, id := some id,
      version := some version, extraData := none, address := none, mod := none }
  if r.getOffset < r.byteLength then
    let ed ← readExtraData r
    pure { base with extraData := some ed }
  else
    pure base

/-- The mod block of `parseInfoObsoleteResponse`, read only when the
mod-presence byte equals 1: mod link, download link, a skipped reserved octet,
mod version, mod size, mod type and mod-DLL byte. -/
def readModBlock (modByte : Nat) (r : BufferReader) :
    Option (Option ModInfo × BufferReader) :=
  if modByte = 1 then do
    let (link, r) := r.readString
    let (downloadLink, r) := r.readString
    let r := r.skip 1
    let (mversion, r) ← r.readUint32
    let (msize, r) ← r.readUint32
    let (mtype, r) ← r.readUint8
    let (mdll, r) ← r.readUint8
    pure (some { link := link, downloadLink := downloadLink,
                 version := mversion, size := msize, type := mtype,
                 dll := mdll : ModInfo }, r)
  else pure (none, r)

/-- Models `parseInfoObsoleteResponse` (source.ts): the legacy GoldSource info decoder. -/
def parseInfoObsoleteResponse (r : BufferReader) : Option ServerInfo := do
  let (address, r) := r.readString
  let (name, r) := r.readString
  let (map, r) := r.readString
  let (folder, r) := r.readString
  let (game, r) := r.readString
  let (players, r) ← r.readUint8
  let (maxPlayers, r) ← r.readUint8
  let (protocol, r) ← r.readUint8
  let (serverType, r) ← r.readUint8
  let (environment, r) ← r.readUint8
  let (visibility, r) ← r.readUint8
  let (modByte, r) ← r.readUint8
  let (mod, r) ← readModBlock modByte r
  let (vac, r) ← r.readUint8
  let (bots, _) ← r.readUint8
  pure { protocol := protocol, name := name, map := map, folder := folder,
         game := game, players := players, maxPlayers := maxPlayers,
         bots := bots, serverType := serverType, environment := environment,
         visibility := visibility, vac := vac, id := none, version := none,
         extraData := none, address := some address, mod := mod }

/-- The base-record loop of `parsePlayerResponse`. -/
def readPlayersLoop : Nat → BufferReader → Option (List PlayerInfo × BufferReader)
  | 0, r => some ([], r)
  | n+1, r => do
    let (index, r) ← r.readUint8
    let (name, r) := r.readString
    let (score, r) ← r.readUint32
    let (duration, r) ← r.readFloat32
    let (rest, r) ← readPlayersLoop n r
    pure ({ index := index, name := name, score := score, duration := duration,
            deaths := none, money := none : PlayerInfo } :: rest, r)

/-- The Ship extension loop of `parsePlayerResponse`: per player, in order,
two additional 32-bit fields (deaths, money). -/
def shipLoop (r : BufferReader) : List PlayerInfo → Option (List PlayerInfo × BufferReader)
  | [] => some ([], r)
  | p :: rest => do
    let (deaths, r) ← r.readUint32
    let (money, r) ← r.readUint32
    let (rest', r) ← shipLoop r rest
    pure ({ p with deaths := some deaths, money := some money } :: rest', r)

/-- Models `parsePlayerResponse` (source.ts). -/
def parsePlayerResponse (r : BufferReader) : Option (List PlayerInfo) := do
  let (playerCount, r) ← r.readUint8
  let (players, r) ← readPlayersLoop playerCount r
  if r.getOffset < r.byteLength then
    let (players, _) ← shipLoop r players
    pure players
  else
    pure players

/-- Models `rules[key] = value` on a JS object: overwrite in place, else append. -/
def upsert {α β : Type} [DecidableEq α] (k : α) (v : β) : List (α × β) → List (α × β)
  | [] => [(k, v)]
  | (k', v') :: rest => if k = k' then (k, v) :: rest else (k', v') :: upsert k v rest

/-- The key/value loop of `parseRulesResponse`; total because `readString` is. -/
def rulesLoop : Nat → BufferReader → List (Msg × Msg) → List (Msg × Msg)
  | 0, _, acc => acc
  | n+1, r, acc =>
    let (key, r) := r.readString
    let (value, r) := r.readString
    rulesLoop n r (upsert key value acc)

/-- Models `parseRulesResponse` (source.ts): a 16-bit count then that many key/value
pairs; later duplicate keys overwrite earlier ones. -/
def parseRulesResponse (r : BufferReader) : Option (List (Msg × Msg)) := do
  let (ruleCount, r) ← r.readUint16
  pure (rulesLoop ruleCount r [])

/-- Models `parseResponse` (source.ts): skip the 4-byte response header, read the
payload discriminator and route to the matching decoder.  A reader running
past the end models the `RangeError` Node would throw. -/
def parseResponse (payload : Msg) : Except QError Response :=
  match BufferReader.readInt8 { buffer := payload, offset := 4 } with
  | none => .error .rangeError
  | some (header, r) =>
    if header = 0x49 then
      match parseInfoResponse r with
      | some i => .ok (.info i)
      | none => .error .rangeError
    else if header = 0x6D then
      match parseInfoObsoleteResponse r with
      | some i => .ok (.info i)
      | none => .error .rangeError
    else if header = 0x44 then
      match parsePlayerResponse r with
      | some ps => .ok (.players ps)
      | none => .error .rangeError
    else if header = 0x45 then
      match parseRulesResponse r with
      | some rs => .ok (.rules rs)
      | none => .error .rangeError
    else .error .unknownResponseType

/-- The fixed ASCII tag `"Source Engine Query\0"` appended to an A2S_INFO request. -/
def sourceEngineQueryTag : Msg :=
  [0x53, 0x6F, 0x75, 0x72, 0x63, 0x65, 0x20, 0x45, 0x6E, 0x67, 0x69, 0x6E,
   0x65, 0x20, 0x51, 0x75, 0x65, 0x72, 0x79, 0x00]

/-- Models `sendRequest` (source.ts): `0xFFFFFFFF` + the request discriminator, plus
the fixed ASCII tag for A2S_INFO (0x54), plus either the challenge token or —
for non-info requests without a challenge — a 4-octet `0xFFFFFFFF` placeholder. -/
def mkRequest (reqHeader : Nat) (challenge : Option Msg) : Msg :=
  let request := [0xFF, 0xFF, 0xFF, 0xFF, reqHeader]
  let request := if reqHeader = 0x54 then request ++ sourceEngineQueryTag else request
  match challenge with
  | some c => request ++ c
  | none => if reqHeader ≠ 0x54 then request ++ [0xFF, 0xFF, 0xFF, 0xFF] else request

/-- Models `message.subarray(start, start + 4).equals(Buffer.from([0xFF,0xFF,0xFF,0xFF]))`:
the single-packet-marker probe used by both dialect-demotion checks. -/
def windowEq (m : Msg) (start : Nat) : Bool :=
  (m.drop start).take 4 == [0xFF, 0xFF, 0xFF, 0xFF]

/-- Key order on buffered packet entries: `sort(([keyA], [keyB]) => keyA - keyB)`. -/
def keyLe (a b : Nat × Msg) : Prop := a.1 ≤ b.1

instance : DecidableRel keyLe := fun a b => Nat.decLe a.1 b.1

instance : IsTotal (Nat × Msg) keyLe := ⟨fun a b => Nat.le_total a.1 b.1⟩

instance : IsTrans (Nat × Msg) keyLe := ⟨fun _ _ _ h h' => Nat.le_trans h h'⟩

/-- The buffered packet entries sorted ascending by packet number (both
`Object.entries(packets).sort(...)` and the ascending numeric key order that
`Object.values` yields for integer-like keys). -/
def sortPackets (l : List (Nat × Msg)) : List (Nat × Msg) :=
  List.insertionSort keyLe l

/-- Models `Object.values(packets)`: the buffered raw datagrams in ascending key order. -/
def packetValues (l : List (Nat × Msg)) : List Msg :=
  (sortPackets l).map Prod.snd

/-- The per-call mutable state of `Source.get`: retry counter, the buffered
raw datagrams keyed by packet number, the compressed flag, the retained
checksum, and the two dialect-assumption flags.  `sent` records the challenge
retransmissions issued so far (the observable `socket.send` calls of
`onMessage`). -/
structure QState where
  retryCount : Nat
  packets : List (Nat × Msg)
  isCompressed : Bool
  crc32CheckSum : Int
  goldSource : Bool
  orangeBox : Bool
  sent : List Msg
deriving Repr, DecidableEq

/-- The initial per-call state of `Source.get`. -/
def initState : QState :=
  { retryCount := 0, packets := [], isCompressed := false, crc32CheckSum := 0,
    goldSource := false, orangeBox := true, sent := [] }

/-- The observable outcome of feeding one datagram to `onMessage`:
still waiting for more datagrams, or a settlement (`resolve`, `reject`, or an
exception thrown out of the handler).  Terminal outcomes carry the state at
settlement time; `outOfFuel` is the artefact of the fuelled recursion and is
never reached with adequate fuel. -/
inductive Outcome where
  | waiting (s : QState)
  | resolved (r : Response) (s : QState)
  | rejected (e : QError) (s : QState)
  | thrown (e : QError) (s : QState)
  | outOfFuel
deriving Repr, DecidableEq

/-- Whether `socket.close()` runs on this settlement: every `reject` site and
every successful `resolve` site closes the socket, but an exception thrown out
of the `message` handler escapes before any `socket.close()` call. -/
def Outcome.closesSocket : Outcome → Bool
  | .resolved _ _ => true
  | .rejected _ _ => true
  | _ => false

/-- A settlement (the promise resolves or rejects, or the handler throws). -/
def Outcome.isTerminal : Outcome → Bool
  | .waiting _ => false
  | .outOfFuel => false
  | _ => true

/-- Models `assembledPayload` (source.ts): sort the buffered packets by packet number
and concatenate each datagram's payload bytes, whose start offset depends on
the dialect flags and — for the first packet of a compressed response — on the
extra size/checksum fields. -/
def assemblePayload (s : QState) : Msg :=
  ((sortPackets s.packets).map fun kv =>
    if s.goldSource then kv.2.drop 9
    else kv.2.drop (10 + (if s.orangeBox then 2 else 0) +
      (if kv.1 == 0 && s.isCompressed then 8 else 0))).flatten

/-- Models `resolve(parseResponse(payload))`: a successful parse resolves the promise
(and the socket is then closed); a parse failure is thrown out of the handler. -/
def dispatch (s : QState) (payload : Msg) : Outcome :=
  match parseResponse payload with
  | .ok r => .resolved r s
  | .error e => .thrown e s

/-- The loop body of `reload` (source.ts): feed a list of raw datagrams back
through the handler, stopping at the first settlement. -/
def runList (step : QState → Msg → Outcome) : QState → List Msg → Outcome
  | s, [] => .waiting s
  | s, m :: rest =>
    match step s m with
    | .waiting s' => runList step s' rest
    | out => out

section Orchestrator

variable (decomp : Msg → Option Msg) (crcFn : Msg → Int) (reqHeader : Nat)

/-- Lines 635-664 of source.ts: once all packets are buffered, concatenate
them; if compressed, decompress (`Bunzip.decode`, modelled by the abstract
`decomp`; failure is `none`), on failure demote the Orange Box assumption and
`reload()` all buffered datagrams (or throw if it was already demoted), and on
success verify the CRC32 (`crcFn`) of the decompressed bytes against the
retained checksum before dispatching. -/
def assembleAndDispatch (step : QState → Msg → Outcome) (s : QState) : Outcome :=
  let assembledPayload := assemblePayload s
  if s.isCompressed then
    match decomp assembledPayload with
    | none =>
      if !s.orangeBox then .thrown .decompressionError s
      else runList step { s with orangeBox := false, packets := [] }
        (packetValues s.packets)
    | some decompressed =>
      let actualChecksum := crcFn decompressed
      if actualChecksum == s.crc32CheckSum then dispatch s decompressed
      else .thrown (.checksumMismatch s.crc32CheckSum actualChecksum) s
  else dispatch s assembledPayload

/-- Models `packets[packetNumber] = message` followed by the completion check
`Object.keys(packets).length === totalPackets`. -/
def storeAndCheck (step : QState → Msg → Outcome) (s : QState) (m : Msg)
    (packetNumber totalPackets : Nat) : Outcome :=
  let s := { s with packets := upsert packetNumber m s.packets }
  if s.packets.length == totalPackets then assembleAndDispatch decomp crcFn step s
  else .waiting s

/-- The Source-dialect tail after the maximum-packet-size field: for the first
packet of a compressed response, read the 4-octet size field and retain the
4-octet checksum, then store the datagram. -/
def handleSourceTail (step : QState → Msg → Outcome) (s : QState) (m : Msg)
    (packetNumber totalPackets : Nat) : Outcome :=
  if packetNumber == 0 && s.isCompressed then
    let base := if s.orangeBox then 12 else 10
    match readUint32At m base, readInt32At m (base + 4) with
    | some _, some ck =>
      storeAndCheck decomp crcFn step { s with crc32CheckSum := ck } m
        packetNumber totalPackets
    | _, _ => .thrown .rangeError s
  else storeAndCheck decomp crcFn step s m packetNumber totalPackets

/-- The Source-dialect (modern) multi-packet branch: separate total/number
octets, the Orange Box detection probe on the first packet (which demotes and
reloads every buffered datagram), the 2-octet maximum-packet-size field while
the Orange Box assumption holds, then the compressed-first-packet fields. -/
def handleSource (step : QState → Msg → Outcome) (s : QState) (m : Msg) : Outcome :=
  match readUint8At m 8, readUint8At m 9 with
  | some totalPackets, some packetNumber =>
    if s.orangeBox && (packetNumber == 0) &&
        windowEq m (if s.isCompressed then 18 else 10) then
      runList step { s with orangeBox := false, packets := [] }
        (packetValues s.packets ++ [m])
    else if s.orangeBox then
      match readUint16At m 10 with
      | none => .thrown .rangeError s
      | some _ => handleSourceTail decomp crcFn step s m packetNumber totalPackets
    else handleSourceTail decomp crcFn step s m packetNumber totalPackets
  | _, _ => .thrown .rangeError s

/-- The GoldSource multi-packet branch: packet number in the high nibble and
total count in the low nibble of one octet. -/
def handleGoldSource (step : QState → Msg → Outcome) (s : QState) (m : Msg) : Outcome :=
  match readUint8At m 8 with
  | none => .thrown .rangeError s
  | some packetByte =>
    storeAndCheck decomp crcFn step s m ((packetByte >>> 4) &&& 0x0F)
      (packetByte &&& 0x0F)

/-- The multi-packet (`0xFFFFFFFE`) branch of `onMessage`: read the response
id (high bit = compressed), run the GoldSource legacy-framing probe at offset
9 (demoting and reloading every buffered datagram on a match), then handle the
datagram under the active dialect assumption. -/
def handleMultiPacket (step : QState → Msg → Outcome) (s : QState) (m : Msg) : Outcome :=
  match readInt32At m 4 with
  | none => .thrown .rangeError s
  | some idVal =>
    let s := { s with isCompressed := decide (idVal < 0) }
    if !s.goldSource && windowEq m 9 then
      runList step { s with goldSource := true, packets := [] }
        (packetValues s.packets ++ [m])
    else if s.goldSource then handleGoldSource decomp crcFn step s m
    else handleSource decomp crcFn step s m

/-- One `onMessage` invocation (source.ts lines 542-670), parameterised by the
`step` used to re-feed datagrams on a `reload`: read the 4-octet header, take
the challenge branch whenever the fifth octet equals `0x41` (bounded by the
2-retransmission budget), otherwise dispatch on the header marker. -/
def onMessageStep (step : QState → Msg → Outcome) (s : QState) (m : Msg) : Outcome :=
  match readInt32At m 0 with
  | none => .thrown .rangeError s
  | some mhdr =>
    if m.get? 4 == some 0x41 then
      if s.retryCount < 2 then
        .waiting
          { s with
            retryCount := s.retryCount + 1
            sent := s.sent ++ [mkRequest reqHeader (some ((m.drop 5).take 4))] }
      else .rejected .retryExhausted s
    else if mhdr == -1 then dispatch s m
    else if mhdr == -2 then handleMultiPacket decomp crcFn step s m
    else .rejected .invalidHeader s

/-- The fuelled `onMessage` handler: fuel is consumed on each `reload`
re-entry; at most two demotions can occur per call, so fuel 3 is always
adequate and `outOfFuel` is unreachable in practice. -/
def onMessage : Nat → QState → Msg → Outcome
  | 0 => fun _ _ => .outOfFuel
  | fuel + 1 => onMessageStep decomp crcFn reqHeader (onMessage fuel)

end Orchestrator

/-- Accumulate a list of (packet number, datagram) deliveries into the packets
map, exactly as successive `packets[packetNumber] = message` stores do. -/
def bufferAll (l : List (Nat × Msg)) : List (Nat × Msg) :=
  l.foldl (fun acc kv => upsert kv.1 kv.2 acc) []

/-- Strict key order on buffered packet entries. -/
def keyLt (a b : Nat × Msg) : Prop := a.1 < b.1

instance : IsAntisymm (Nat × Msg) keyLt :=
  ⟨fun _ _ h h' => absurd h' (Nat.lt_asymm h)⟩

theorem upsert_of_not_mem {k : Nat} {v : Msg} :
    ∀ {l : List (Nat × Msg)}, k ∉ l.map Prod.fst → upsert k v l = l ++ [(k, v)]
  | [], _ => rfl
  | (k', v') :: rest, h => by
    have hne : k ≠ k' := fun he => h (by simp [he])
    have hrest : k ∉ rest.map Prod.fst := fun hc => h (by simp [hc])
    simp [upsert, hne, upsert_of_not_mem hrest]

theorem foldl_upsert_eq :
    ∀ (l acc : List (Nat × Msg)), ((acc ++ l).map Prod.fst).Nodup →
      l.foldl (fun acc kv => upsert kv.1 kv.2 acc) acc = acc ++ l
  | [], acc, _ => by simp
  | kv :: rest, acc, h => by
    have h' : (acc.map Prod.fst ++ (kv :: rest).map Prod.fst).Nodup := by
      rw [← List.map_append]; exact h
    rw [List.nodup_append] at h'
    have hmem : kv.1 ∉ acc.map Prod.fst := fun hc => h'.2.2 hc (by simp)
    have hstep : upsert kv.1 kv.2 acc = acc ++ [kv] := upsert_of_not_mem hmem
    have hrec := foldl_upsert_eq rest (acc ++ [kv]) (by simpa using h)
    simp only [List.foldl_cons, hstep, hrec, List.append_assoc, List.singleton_append]

theorem bufferAll_eq {l : List (Nat × Msg)} (h : (l.map Prod.fst).Nodup) :
    bufferAll l = l := by
  simpa [bufferAll] using foldl_upsert_eq l [] (by simpa using h)

theorem sortPackets_perm (l : List (Nat × Msg)) : (sortPackets l).Perm l :=
  List.perm_insertionSort keyLe l

theorem sortPackets_sorted (l : List (Nat × Msg)) :
    List.Sorted keyLe (sortPackets l) :=
  List.sorted_insertionSort keyLe l

theorem sortPackets_sorted_lt {l : List (Nat × Msg)}
    (h : (l.map Prod.fst).Nodup) : List.Sorted keyLt (sortPackets l) := by
  have hnd : ((sortPackets l).map Prod.fst).Nodup :=
    (((sortPackets_perm l).map Prod.fst).nodup_iff).mpr h
  have hne : (sortPackets l).Pairwise (fun a b => a.1 ≠ b.1) :=
    (List.pairwise_map).mp hnd
  have hle : (sortPackets l).Pairwise keyLe := sortPackets_sorted l
  exact (hle.and hne).imp fun hab => Nat.lt_of_le_of_ne hab.1 hab.2

/-- Two permutation-equivalent delivery orders with distinct packet numbers
produce the same sorted entry list. -/
theorem sortPackets_eq_of_perm {l₁ l₂ : List (Nat × Msg)} (hperm : l₁.Perm l₂)
    (hnd : (l₁.map Prod.fst).Nodup) : sortPackets l₁ = sortPackets l₂ :=
  List.eq_of_perm_of_sorted
    ((sortPackets_perm l₁).trans (hperm.trans (sortPackets_perm l₂).symm))
    (sortPackets_sorted_lt hnd)
    (sortPackets_sorted_lt (((hperm.map Prod.fst).nodup_iff).mp hnd))

theorem scanString_of_no_null :
    ∀ {l : Msg}, (∀ b ∈ l, b ≠ 0) → scanString l = l
  | [], _ => rfl
  | b :: rest, h => by
    have hb : b ≠ 0 := h b (List.mem_cons_self b rest)
    have hr : scanString rest = rest :=
      scanString_of_no_null fun x hx => h x (List.mem_cons_of_mem b hx)
    simp [scanString, hb, hr]

theorem get?_block_isSome {m : Msg} {i : Nat} (h : i < m.length) :
    ∃ b, m.get? i = some b :=
  ⟨m.get ⟨i, h⟩, List.get?_eq_get h⟩

theorem readUint32At_isSome {m : Msg} {i : Nat} (h : i + 4 ≤ m.length) :
    ∃ v, readUint32At m i = some v := by
  obtain ⟨b0, h0⟩ := get?_block_isSome (m := m) (i := i) (by omega)
  obtain ⟨b1, h1⟩ := get?_block_isSome (m := m) (i := i + 1) (by omega)
  obtain ⟨b2, h2⟩ := get?_block_isSome (m := m) (i := i + 2) (by omega)
  obtain ⟨b3, h3⟩ := get?_block_isSome (m := m) (i := i + 3) (by omega)
  exact ⟨_, by rw [readUint32At, h0, h1, h2, h3]⟩

theorem readInt32At_isSome {m : Msg} {i : Nat} (h : i + 4 ≤ m.length) :
    ∃ v, readInt32At m i = some v := by
  obtain ⟨v, hv⟩ := readUint32At_isSome h
  exact ⟨toInt32 v, by rw [readInt32At, hv]; rfl⟩

/-- C10.  `BufferReader.readString` on a buffer with no `0x00` byte from the
cursor to the end returns every remaining byte and advances the cursor one
past the end of the buffer; being a total function it raises no error, so a
payload truncated before a null terminator yields a silently shortened string
rather than a decode failure. -/
theorem readString_no_null (buf : Msg) (off : Nat) (hoff : off ≤ buf.length)
    (hnz : ∀ b ∈ buf.drop off, b ≠ 0) :
    BufferReader.readString { buffer := buf, offset := off } =
      (buf.drop off, { buffer := buf, offset := buf.length + 1 }) := by
  have hscan : scanString (buf.drop off) = buf.drop off := scanString_of_no_null hnz
  have hofs : off + (buf.drop off).length + 1 = buf.length + 1 := by
    rw [List.length_drop]
    omega
  simp only [BufferReader.readString, hscan, hofs]

/-- Witness for C10 at a concrete buffer. -/
theorem readString_no_null_witness :
    BufferReader.readString { buffer := [7, 8, 9], offset := 1 } =
      ([8, 9], { buffer := [7, 8, 9], offset := 4 }) :=
  readString_no_null [7, 8, 9] 1 (by decide) (by decide)

/-- A decompressor that always fails (used to instantiate the abstract
`seek-bzip` parameter in concrete evaluations). -/
def noDecomp : Msg → Option Msg := fun _ => none

/-- A checksum function with a constant value (concrete `crc-32` stand-in). -/
def constCrc (v : Int) : Msg → Int := fun _ => v

/-- A step function that never settles (placeholder for unreachable reloads). -/
def stuckStep : QState → Msg → Outcome := fun _ _ => .outOfFuel

/-- The UTF-8 bytes of `"Test Server"`. -/
def testServerName : Msg := [84, 101, 115, 116, 32, 83, 101, 114, 118, 101, 114]

/-- A single-packet current-dialect info payload (discriminator 0x49):
protocol 17, name `"Test Server"`, map `"de_dust2"`, folder `"cs"`, game
`"CS"`, app id 240, 5 players, 10 max players, 0 bots, type `'d'`,
environment `'l'`, visibility 0, VAC 1, version `"1.0"`, no extra data. -/
def infoPayload : Msg :=
  [255, 255, 255, 255, 0x49, 17] ++ testServerName ++ [0] ++
    [100, 101, 95, 100, 117, 115, 116, 50, 0] ++ [99, 115, 0] ++ [67, 83, 0] ++
    [240, 0, 5, 10, 0, 100, 108, 0, 1] ++ [49, 46, 48, 0]

/-- C9.  Decoding the concrete current-dialect info payload produces a result
with name `"Test Server"`, 5 players and 10 max players (fields read in the
fixed source order). -/
theorem info_decode_concrete :
    ∃ i, parseResponse infoPayload = .ok (.info i) ∧
      i.name = testServerName ∧ i.players = 5 ∧ i.maxPlayers = 10 :=
  ⟨{ protocol := 17, name := testServerName,
     map := [100, 101, 95, 100, 117, 115, 116, 50], folder := [99, 115],
     game := [67, 83], players := 5, maxPlayers := 10, bots := 0,
     serverType := 100, environment := 108, visibility := 0, vac := 1,
     id := some 240, version := some [49, 46, 48], extraData := none,
     address := none, mod := none }, rfl, rfl, rfl, rfl⟩

/-- C3.  A challenge datagram (fifth octet `0x41`) with the retry budget not
yet exhausted triggers exactly one retransmission of the request with the
received 4-octet token appended (and nothing else changes); once two
retransmissions have occurred, a further challenge is rejected with the
retry-exhausted error instead of retransmitting. -/
theorem challenge_retransmit_bounded (decomp : Msg → Option Msg)
    (crcFn : Msg → Int) (reqHeader : Nat) (step : QState → Msg → Outcome)
    (s : QState) (m : Msg) (hch : m.get? 4 = some 0x41) (hlen : 9 ≤ m.length) :
    (s.retryCount < 2 →
      onMessageStep decomp crcFn reqHeader step s m =
        .waiting
          { s with
            retryCount := s.retryCount + 1
            sent := s.sent ++ [mkRequest reqHeader (some ((m.drop 5).take 4))] } ∧
      ((m.drop 5).take 4).length = 4) ∧
    (2 ≤ s.retryCount →
      onMessageStep decomp crcFn reqHeader step s m = .rejected .retryExhausted s) := by
  obtain ⟨v, hv⟩ := readInt32At_isSome (m := m) (i := 0) (by omega)
  have hch' : m[4]? = some 0x41 := by simpa using hch
  constructor
  · intro hr
    refine ⟨by simp [onMessageStep, hv, hch', hr], ?_⟩
    simp only [List.length_take, List.length_drop]
    omega
  · intro hr
    have hnr : ¬ s.retryCount < 2 := by omega
    simp [onMessageStep, hv, hch', hnr]

/-- Witness for C3: a concrete challenge datagram from the initial state, and
a third consecutive challenge after two retransmissions. -/
theorem challenge_retransmit_bounded_witness :
    (onMessageStep noDecomp (constCrc 0) 0x56 stuckStep initState
        [255, 255, 255, 255, 0x41, 1, 2, 3, 4] =
      .waiting
        { initState with
          retryCount := 1
          sent := [mkRequest 0x56 (some [1, 2, 3, 4])] }) ∧
    (onMessageStep noDecomp (constCrc 0) 0x56 stuckStep
        { initState with retryCount := 2 }
        [255, 255, 255, 255, 0x41, 1, 2, 3, 4] =
      .rejected .retryExhausted { initState with retryCount := 2 }) := by
  constructor
  · have h := (challenge_retransmit_bounded noDecomp (constCrc 0) 0x56 stuckStep
      initState [255, 255, 255, 255, 0x41, 1, 2, 3, 4] (by decide) (by decide)).1
      (by decide)
    exact h.1
  · exact (challenge_retransmit_bounded noDecomp (constCrc 0) 0x56 stuckStep
      { initState with retryCount := 2 } [255, 255, 255, 255, 0x41, 1, 2, 3, 4]
      (by decide) (by decide)).2 (by decide)

/-- C1.  At the reassembly-completion step of a compressed response, the
retained checksum is compared against the checksum of the *decompressed*
bytes: when the checksum of the decompressed payload differs from the retained
one the handler fails with a checksum-mismatch exception and never resolves
with a decoded result, and when it matches the payload is dispatched — in
either case independently of what the checksum function would return on the
wire-compressed assembled bytes (`crcFn` is universally quantified and only
its value on the decompressed bytes `d` matters). -/
theorem checksum_mismatch_fails (decomp : Msg → Option Msg) (crcFn : Msg → Int)
    (step : QState → Msg → Outcome) (s : QState) (d : Msg)
    (hc : s.isCompressed = true) (hd : decomp (assemblePayload s) = some d) :
    (crcFn d ≠ s.crc32CheckSum →
      assembleAndDispatch decomp crcFn step s =
        .thrown (.checksumMismatch s.crc32CheckSum (crcFn d)) s ∧
      ∀ resp s', assembleAndDispatch decomp crcFn step s ≠ .resolved resp s') ∧
    (crcFn d = s.crc32CheckSum →
      assembleAndDispatch decomp crcFn step s = dispatch s d) := by
  constructor
  · intro hne
    have h1 : assembleAndDispatch decomp crcFn step s =
        .thrown (.checksumMismatch s.crc32CheckSum (crcFn d)) s := by
      simp [assembleAndDispatch, hc, hd, hne]
    exact ⟨h1, fun resp s' => by rw [h1]; simp⟩
  · intro heq
    simp [assembleAndDispatch, hc, hd, heq]

/-- Witness for C1: a concrete corrupted-checksum configuration. -/
theorem checksum_mismatch_fails_witness :
    assembleAndDispatch (fun _ => some [1]) (constCrc 7) stuckStep
      { initState with isCompressed := true, crc32CheckSum := 5 } =
      .thrown (.checksumMismatch 5 7)
        { initState with isCompressed := true, crc32CheckSum := 5 } :=
  ((checksum_mismatch_fails (fun _ => some [1]) (constCrc 7) stuckStep
    { initState with isCompressed := true, crc32CheckSum := 5 } [1]
    rfl rfl).1 (by decide)).1

/-- C2 (code bug).  A single-packet datagram carrying an unknown payload
discriminator makes `parseResponse` throw out of the `message` handler before
the `socket.close()` call on the resolve path is reached: the outcome is a
thrown `unknownResponseType` and the socket is not closed on that path (no
`reject`-with-close runs either, contradicting the specified
release-on-every-exit-path behaviour). -/
theorem thrown_errors_leave_socket_open :
    onMessage noDecomp (constCrc 0) 0x54 1 initState
        [255, 255, 255, 255, 0x5A] =
      .thrown .unknownResponseType initState ∧
    Outcome.closesSocket (.thrown .unknownResponseType initState) = false := by
  decide

/-- C4.  Reassembly is delivery-order independent: buffering the fragments of
a multi-packet response in any permutation of any delivery order (distinct
packet numbers) and then assembling yields the same payload, because
`assemblePayload` sorts the buffered entries by packet number before
concatenating. -/
theorem reassembly_order_independent (s : QState) (l₁ l₂ : List (Nat × Msg))
    (hperm : l₁.Perm l₂) (hnd : (l₁.map Prod.fst).Nodup) :
    assemblePayload { s with packets := bufferAll l₁ } =
      assemblePayload { s with packets := bufferAll l₂ } := by
  have hnd₂ : (l₂.map Prod.fst).Nodup := ((hperm.map Prod.fst).nodup_iff).mp hnd
  simp only [assemblePayload, bufferAll_eq hnd, bufferAll_eq hnd₂,
    sortPackets_eq_of_perm hperm hnd]

theorem mem_upsert {k : Nat} {v : Msg} :
    ∀ {l : List (Nat × Msg)} {p : Nat × Msg}, p ∈ upsert k v l → p ∈ l ∨ p = (k, v)
  | [], p, h => by
    simp [upsert] at h
    exact Or.inr h
  | (k', v') :: rest, p, h => by
    by_cases hk : k = k'
    · simp only [upsert, if_pos hk] at h
      rcases List.mem_cons.mp h with h' | h'
      · exact Or.inr h'
      · exact Or.inl (List.mem_cons_of_mem _ h')
    · simp only [upsert, if_neg hk] at h
      rcases List.mem_cons.mp h with h' | h'
      · exact Or.inl (h' ▸ List.mem_cons_self _ _)
      · rcases mem_upsert h' with h'' | h''
        · exact Or.inl (List.mem_cons_of_mem _ h'')
        · exact Or.inr h''

theorem mem_packetValues {l : List (Nat × Msg)} {v : Msg}
    (h : v ∈ packetValues l) : v ∈ l.map Prod.snd := by
  obtain ⟨p, hp, hpe⟩ := List.mem_map.mp h
  exact hpe ▸ List.mem_map_of_mem Prod.snd (((sortPackets_perm l).mem_iff).mp hp)

theorem mem_map_snd_upsert {k : Nat} {x : Msg} {l : List (Nat × Msg)} {v : Msg}
    (h : v ∈ (upsert k x l).map Prod.snd) : v ∈ l.map Prod.snd ∨ v = x := by
  obtain ⟨p, hp, hpe⟩ := List.mem_map.mp h
  rcases mem_upsert hp with h' | h'
  · exact Or.inl (hpe ▸ List.mem_map_of_mem Prod.snd h')
  · right
    rw [← hpe, h']

theorem mem_values_append_self {l : List (Nat × Msg)} {m v : Msg}
    (h : v ∈ packetValues l ++ [m]) : v ∈ l.map Prod.snd ∨ v = m := by
  rcases List.mem_append.mp h with h' | h'
  · exact Or.inl (mem_packetValues h')
  · right
    simpa using h'

theorem dispatch_ne_waiting (s : QState) (payload : Msg) (s' : QState) :
    dispatch s payload ≠ .waiting s' := by
  unfold dispatch
  cases parseResponse payload <;> simp

/-- Witness for C4: two fragments delivered in both orders. -/
theorem reassembly_order_independent_witness :
    assemblePayload { initState with
      packets := bufferAll [(0, [1, 2]), (1, [3, 4])] } =
    assemblePayload { initState with
      packets := bufferAll [(1, [3, 4]), (0, [1, 2])] } :=
  reassembly_order_independent initState [(0, [1, 2]), (1, [3, 4])]
    [(1, [3, 4]), (0, [1, 2])] (by decide) (by decide)

theorem aad_waiting {decomp : Msg → Option Msg} {crcFn : Msg → Int}
    {step : QState → Msg → Outcome} {s s' : QState}
    (h : assembleAndDispatch decomp crcFn step s = .waiting s') :
    s.isCompressed = true ∧ s.orangeBox = true ∧
      runList step { s with orangeBox := false, packets := [] }
        (packetValues s.packets) = .waiting s' := by
  by_cases hc : s.isCompressed = true
  · rw [assembleAndDispatch, if_pos hc] at h
    cases hdec : decomp (assemblePayload s) with
    | none =>
      rw [hdec] at h
      by_cases hob : s.orangeBox = true
      · simp only [hob, Bool.not_true, Bool.false_eq_true, if_false] at h
        exact ⟨hc, hob, h⟩
      · rw [Bool.not_eq_true] at hob
        simp [hob] at h
    | some d =>
      rw [hdec] at h
      by_cases hcrc : crcFn d == s.crc32CheckSum
      · simp only [hcrc, if_true] at h
        exact absurd h (dispatch_ne_waiting _ _ _)
      · simp [hcrc] at h
  · rw [Bool.not_eq_true] at hc
    rw [assembleAndDispatch] at h
    simp only [hc, Bool.false_eq_true, if_false] at h
    exact absurd h (dispatch_ne_waiting _ _ _)

theorem storeAndCheck_waiting {decomp : Msg → Option Msg} {crcFn : Msg → Int}
    {step : QState → Msg → Outcome} {s : QState} {m : Msg}
    {n total : Nat} {s' : QState}
    (h : storeAndCheck decomp crcFn step s m n total = .waiting s') :
    s' = { s with packets := upsert n m s.packets } ∨
      assembleAndDispatch decomp crcFn step
        { s with packets := upsert n m s.packets } = .waiting s' := by
  simp only [storeAndCheck] at h
  split at h
  · exact Or.inr h
  · injection h with h'
    exact Or.inl h'.symm

theorem handleSourceTail_waiting {decomp : Msg → Option Msg} {crcFn : Msg → Int}
    {step : QState → Msg → Outcome} {s : QState} {m : Msg}
    {n total : Nat} {s' : QState}
    (h : handleSourceTail decomp crcFn step s m n total = .waiting s') :
    ∃ s₁, (s₁ = s ∨ ∃ ck : Int, s₁ = { s with crc32CheckSum := ck }) ∧
      storeAndCheck decomp crcFn step s₁ m n total = .waiting s' := by
  simp only [handleSourceTail] at h
  split at h
  · split at h
    · exact ⟨_, Or.inr ⟨_, rfl⟩, h⟩
    · simp at h
  · exact ⟨s, Or.inl rfl, h⟩

theorem handleSource_waiting {decomp : Msg → Option Msg} {crcFn : Msg → Int}
    {step : QState → Msg → Outcome} {s : QState} {m : Msg} {s' : QState}
    (h : handleSource decomp crcFn step s m = .waiting s') :
    (∃ n total s₁,
        (s₁ = s ∨ ∃ ck : Int, s₁ = { s with crc32CheckSum := ck }) ∧
        storeAndCheck decomp crcFn step s₁ m n total = .waiting s') ∨
      runList step { s with orangeBox := false, packets := [] }
        (packetValues s.packets ++ [m]) = .waiting s' := by
  cases h8 : readUint8At m 8 with
  | none => simp [handleSource, h8] at h
  | some total =>
  cases h9 : readUint8At m 9 with
  | none => simp [handleSource, h8, h9] at h
  | some num =>
  simp only [handleSource, h8, h9] at h
  by_cases hdem :
      (s.orangeBox && (num == 0) &&
        windowEq m (if s.isCompressed then 18 else 10)) = true
  · rw [if_pos hdem] at h
    exact Or.inr h
  · rw [if_neg hdem] at h
    by_cases hob : s.orangeBox = true
    · rw [if_pos hob] at h
      cases h16 : readUint16At m 10 with
      | none =>
        rw [h16] at h
        simp at h
      | some w =>
        rw [h16] at h
        obtain ⟨s₁, hs₁, hst⟩ := handleSourceTail_waiting h
        exact Or.inl ⟨num, total, s₁, hs₁, hst⟩
    · rw [if_neg hob] at h
      obtain ⟨s₁, hs₁, hst⟩ := handleSourceTail_waiting h
      exact Or.inl ⟨num, total, s₁, hs₁, hst⟩

theorem handleGoldSource_waiting {decomp : Msg → Option Msg} {crcFn : Msg → Int}
    {step : QState → Msg → Outcome} {s : QState} {m : Msg} {s' : QState}
    (h : handleGoldSource decomp crcFn step s m = .waiting s') :
    ∃ n total, storeAndCheck decomp crcFn step s m n total = .waiting s' := by
  simp only [handleGoldSource] at h
  split at h
  · simp at h
  · exact ⟨_, _, h⟩

theorem handleMultiPacket_waiting {decomp : Msg → Option Msg} {crcFn : Msg → Int}
    {step : QState → Msg → Outcome} {s : QState} {m : Msg} {s' : QState}
    (h : handleMultiPacket decomp crcFn step s m = .waiting s') :
    ∃ c : Bool,
      (runList step { s with isCompressed := c, goldSource := true, packets := [] }
          (packetValues s.packets ++ [m]) = .waiting s') ∨
      (∃ n total s₁,
        (s₁ = { s with isCompressed := c } ∨
          ∃ ck : Int, s₁ = { s with isCompressed := c, crc32CheckSum := ck }) ∧
        storeAndCheck decomp crcFn step s₁ m n total = .waiting s') ∨
      (runList step { s with isCompressed := c, orangeBox := false, packets := [] }
          (packetValues s.packets ++ [m]) = .waiting s') := by
  simp only [handleMultiPacket] at h
  split at h
  · simp at h
  · rename_i idVal _
    refine ⟨decide (idVal < 0), ?_⟩
    split at h
    · exact Or.inl h
    · split at h
      · obtain ⟨n, total, hst⟩ := handleGoldSource_waiting h
        exact Or.inr (Or.inl ⟨n, total, _, Or.inl rfl, hst⟩)
      · rcases handleSource_waiting h with ⟨n, total, s₁, hs₁, hst⟩ | hrl
        · refine Or.inr (Or.inl ⟨n, total, s₁, ?_, hst⟩)
          rcases hs₁ with h' | ⟨ck, h'⟩
          · exact Or.inl h'
          · exact Or.inr ⟨ck, h'⟩
        · exact Or.inr (Or.inr hrl)

/-- Exhaustive description of how one `onMessage` invocation can leave the
call still waiting: the challenge branch (retransmission recorded in `sent`),
a plain multi-packet buffering step, or a demotion `reload` over datagrams all
drawn from the buffered map plus the current one. -/
theorem onMessageStep_waiting {decomp : Msg → Option Msg} {crcFn : Msg → Int}
    {reqHeader : Nat} {step : QState → Msg → Outcome} {s : QState} {m : Msg}
    {s' : QState}
    (h : onMessageStep decomp crcFn reqHeader step s m = .waiting s') :
    (m.get? 4 = some 0x41 ∧
      s' = { s with
             retryCount := s.retryCount + 1
             sent := s.sent ++ [mkRequest reqHeader (some ((m.drop 5).take 4))] }) ∨
    (m.get? 4 ≠ some 0x41 ∧ s'.goldSource = s.goldSource ∧
      s'.orangeBox = s.orangeBox ∧ s'.sent = s.sent ∧
      s'.retryCount = s.retryCount ∧
      ∀ p ∈ s'.packets, p.2 ∈ s.packets.map Prod.snd ∨ p.2 = m) ∨
    (m.get? 4 ≠ some 0x41 ∧
      ∃ s₁ ms₁, runList step s₁ ms₁ = .waiting s' ∧
        s₁.sent = s.sent ∧ s₁.retryCount = s.retryCount ∧
        (s.goldSource = true → s₁.goldSource = true) ∧
        (s.orangeBox = false → s₁.orangeBox = false) ∧
        s₁.packets = [] ∧
        ∀ v ∈ ms₁, v ∈ s.packets.map Prod.snd ∨ v = m) := by
  simp only [onMessageStep] at h
  split at h
  · simp at h
  · split at h
    · rename_i hch
      have hch' : m.get? 4 = some 0x41 := eq_of_beq hch
      split at h
      · injection h with h'
        exact Or.inl ⟨hch', h'.symm⟩
      · simp at h
    · rename_i hch
      have hne : m.get? 4 ≠ some 0x41 := fun hc => hch (by rw [hc]; rfl)
      split at h
      · exact absurd h (dispatch_ne_waiting _ _ _)
      · split at h
        · obtain ⟨c, hcase⟩ := handleMultiPacket_waiting h
          rcases hcase with hrl | hstore | hrl
          · refine Or.inr (Or.inr ⟨hne, _, _, hrl, rfl, rfl, fun hgs => rfl,
              fun hob => hob, rfl, ?_⟩)
            intro v hv
            exact mem_values_append_self hv
          · obtain ⟨n, total, s₁, hs₁, hst⟩ := hstore
            rcases storeAndCheck_waiting hst with hEq | hAad
            · refine Or.inr (Or.inl ⟨hne, ?_, ?_, ?_, ?_, ?_⟩) <;>
                rcases hs₁ with h' | ⟨ck, h'⟩ <;> subst h' <;> subst hEq <;>
                  first
                    | rfl
                    | (intro p hp
                       exact mem_map_snd_upsert (List.mem_map_of_mem Prod.snd hp))
            · refine Or.inr (Or.inr ⟨hne, _, _, (aad_waiting hAad).2.2, ?_⟩)
              rcases hs₁ with h' | ⟨ck, h'⟩ <;> subst h' <;>
                refine ⟨rfl, rfl, fun hgs => hgs, fun hob => rfl, rfl, ?_⟩ <;>
                  (intro v hv
                   exact mem_map_snd_upsert (mem_packetValues hv))
          · refine Or.inr (Or.inr ⟨hne, _, _, hrl, rfl, rfl, fun hgs => hgs,
              fun hob => rfl, rfl, ?_⟩)
            intro v hv
            exact mem_values_append_self hv
        · simp at h

/-- Flag monotonicity of a step function: a demoted dialect flag is never
restored by any waiting transition. -/
def MonoStep (step : QState → Msg → Outcome) : Prop :=
  ∀ s m s', step s m = .waiting s' →
    (s.goldSource = true → s'.goldSource = true) ∧
    (s.orangeBox = false → s'.orangeBox = false)

theorem runList_mono {step : QState → Msg → Outcome} (hstep : MonoStep step) :
    ∀ (ms : List Msg) (s s' : QState), runList step s ms = .waiting s' →
      (s.goldSource = true → s'.goldSource = true) ∧
      (s.orangeBox = false → s'.orangeBox = false)
  | [], s, s', h => by
    simp only [runList] at h
    injection h with h'
    subst h'
    exact ⟨id, id⟩
  | m :: rest, s, s', h => by
    simp only [runList] at h
    cases hsm : step s m with
    | waiting s₁ =>
      rw [hsm] at h
      obtain ⟨g1, o1⟩ := hstep s m s₁ hsm
      obtain ⟨g2, o2⟩ := runList_mono hstep rest s₁ s' h
      exact ⟨fun hg => g2 (g1 hg), fun ho => o2 (o1 ho)⟩
    | resolved r s₁ => rw [hsm] at h; simp at h
    | rejected e s₁ => rw [hsm] at h; simp at h
    | thrown e s₁ => rw [hsm] at h; simp at h
    | outOfFuel => rw [hsm] at h; simp at h

theorem mono_onMessage (decomp : Msg → Option Msg) (crcFn : Msg → Int)
    (reqHeader : Nat) :
    ∀ fuel, MonoStep (onMessage decomp crcFn reqHeader fuel)
  | 0 => fun s m s' h => by simp [onMessage] at h
  | fuel + 1 => fun s m s' h => by
    simp only [onMessage] at h
    rcases onMessageStep_waiting h with ⟨-, hEq⟩ | ⟨-, hg, ho, -, -, -⟩ |
      ⟨-, s₁, ms₁, hrun, -, -, hg1, ho1, -, -⟩
    · subst hEq
      exact ⟨fun hg => hg, fun ho => ho⟩
    · exact ⟨fun hgs => hg.trans hgs, fun hob => ho.trans hob⟩
    · obtain ⟨g2, o2⟩ :=
        runList_mono (mono_onMessage decomp crcFn reqHeader fuel) ms₁ s₁ s' hrun
      exact ⟨fun hg => g2 (hg1 hg), fun ho => o2 (by rw [ho1 ho])⟩

/-- The buffered map holds no datagram whose fifth octet is the challenge
discriminator (so a reload never retransmits). -/
def SafePackets (s : QState) : Prop :=
  ∀ p ∈ s.packets, (p.2).get? 4 ≠ some 0x41

theorem runList_sent {step : QState → Msg → Outcome}
    (hstep : ∀ s m s', SafePackets s → m.get? 4 ≠ some 0x41 →
      step s m = .waiting s' → s'.sent = s.sent ∧ SafePackets s') :
    ∀ (ms : List Msg) (s s' : QState), SafePackets s →
      (∀ v ∈ ms, v.get? 4 ≠ some 0x41) → runList step s ms = .waiting s' →
      s'.sent = s.sent ∧ SafePackets s'
  | [], s, s', _, _, h => by
    simp only [runList] at h
    injection h with h'
    subst h'
    exact ⟨rfl, by assumption⟩
  | m :: rest, s, s', hsafe, hms, h => by
    simp only [runList] at h
    cases hsm : step s m with
    | waiting s₁ =>
      rw [hsm] at h
      obtain ⟨e1, hsafe₁⟩ := hstep s m s₁ hsafe (hms m (by simp)) hsm
      obtain ⟨e2, hsafe₂⟩ := runList_sent hstep rest s₁ s' hsafe₁
        (fun v hv => hms v (by simp [hv])) h
      exact ⟨e2.trans e1, hsafe₂⟩
    | resolved r s₁ => rw [hsm] at h; simp at h
    | rejected e s₁ => rw [hsm] at h; simp at h
    | thrown e s₁ => rw [hsm] at h; simp at h
    | outOfFuel => rw [hsm] at h; simp at h

theorem sent_onMessage (decomp : Msg → Option Msg) (crcFn : Msg → Int)
    (reqHeader : Nat) :
    ∀ fuel s m s', SafePackets s → m.get? 4 ≠ some 0x41 →
      onMessage decomp crcFn reqHeader fuel s m = .waiting s' →
      s'.sent = s.sent ∧ SafePackets s'
  | 0, s, m, s', _, _, h => by simp [onMessage] at h
  | fuel + 1, s, m, s', hsafe, hm, h => by
    simp only [onMessage] at h
    rcases onMessageStep_waiting h with ⟨hch, -⟩ | ⟨-, -, -, hsent, -, hpk⟩ |
      ⟨-, s₁, ms₁, hrun, hs₁sent, -, -, -, hs₁pk, hms⟩
    · exact absurd hch hm
    · refine ⟨hsent, fun p hp => ?_⟩
      rcases hpk p hp with hv | hv
      · obtain ⟨q, hq, hqe⟩ := List.mem_map.mp hv
        rw [← hqe]
        exact hsafe q hq
      · rw [hv]
        exact hm
    · have hsafe₁ : SafePackets s₁ := fun p hp => absurd hp (by simp [hs₁pk])
      have hms' : ∀ v ∈ ms₁, v.get? 4 ≠ some 0x41 := by
        intro v hv
        rcases hms v hv with h' | h'
        · obtain ⟨q, hq, hqe⟩ := List.mem_map.mp h'
          rw [← hqe]
          exact hsafe q hq
        · rw [h']
          exact hm
      obtain ⟨e2, hsafe₂⟩ := runList_sent
        (sent_onMessage decomp crcFn reqHeader fuel) ms₁ s₁ s' hsafe₁ hms' hrun
      exact ⟨e2.trans hs₁sent, hsafe₂⟩

/-- Counterexample for C5: a datagram whose leading 4-octet marker is the
multi-packet marker `0xFFFFFFFE` (wire bytes FE FF FF FF) but whose fifth
octet is `0x41` IS handled as a challenge — the handler retransmits the
request with the following 4 octets as token — because the code inspects only
the fifth octet, never the leading marker, for challenge classification. -/
theorem challenge_marker_ignored_cex :
    onMessage noDecomp (constCrc 0) 0x55 1 initState
        [254, 255, 255, 255, 0x41, 1, 2, 3, 4] =
      .waiting
        { initState with
          retryCount := 1
          sent := [mkRequest 0x55 (some [1, 2, 3, 4])] } ∧
    readInt32At [254, 255, 255, 255, 0x41, 1, 2, 3, 4] 0 = some (-2) := by
  decide

/-- C5 (amended).  From the initial state, a received datagram is classified
and handled as a challenge — the token taken from the 4 octets after position
4 and the request retransmitted — if and only if its fifth octet equals the
challenge discriminator `0x41`, regardless of the leading 4-octet marker. -/
theorem challenge_iff_fifth_byte (decomp : Msg → Option Msg) (crcFn : Msg → Int)
    (reqHeader : Nat) (fuel : Nat) (m : Msg) :
    (∃ s', onMessage decomp crcFn reqHeader (fuel + 1) initState m = .waiting s' ∧
        s'.sent = [mkRequest reqHeader (some ((m.drop 5).take 4))]) ↔
      m.get? 4 = some 0x41 := by
  constructor
  · rintro ⟨s', hw, hsent⟩
    by_contra hch
    have hs := sent_onMessage decomp crcFn reqHeader (fuel + 1) initState m s'
      (fun p hp => absurd hp (by simp [initState])) hch hw
    rw [hsent] at hs
    exact absurd hs.1 (by simp [initState])
  · intro hch
    have hlt : 4 < m.length := by
      by_contra hle
      rw [List.get?_eq_none.mpr (by omega)] at hch
      cases hch
    obtain ⟨v, hv⟩ := readInt32At_isSome (m := m) (i := 0) (by omega)
    have hch' : m[4]? = some 0x41 := by simpa using hch
    refine ⟨{ initState with
              retryCount := 1
              sent := [mkRequest reqHeader (some ((m.drop 5).take 4))] }, ?_, rfl⟩
    simp [onMessage, onMessageStep, hv, hch', initState]

/-- Witness for C5 (amended): a datagram with a zero marker and fifth octet
`0x41` is handled as a challenge, via the right-to-left direction. -/
theorem challenge_iff_fifth_byte_witness :
    ∃ s', onMessage noDecomp (constCrc 0) 0x54 1 initState
        [0, 0, 0, 0, 0x41, 9, 9, 9, 9] = .waiting s' ∧
      s'.sent = [mkRequest 0x54 (some [9, 9, 9, 9])] :=
  (challenge_iff_fifth_byte noDecomp (constCrc 0) 0x54 0
    [0, 0, 0, 0, 0x41, 9, 9, 9, 9]).mpr rfl

/-- C6.  Dialect-assumption demotion is monotonic within a call — along any
waiting transition (at any fuel) a true GoldSource flag stays true and a
demoted Orange Box flag stays demoted, so each flag is demoted at most once —
and each of the three demotion sites (GoldSource framing detection, Orange Box
first-packet detection, decompression-failure fallback) hands ALL buffered raw
datagrams (in ascending key order, plus the current one where the source pushes
it) back through the handler from a cleared packet map. -/
theorem dialect_demotion_monotone (decomp : Msg → Option Msg) (crcFn : Msg → Int)
    (reqHeader : Nat) :
    (∀ fuel s m s', onMessage decomp crcFn reqHeader fuel s m = .waiting s' →
      (s.goldSource = true → s'.goldSource = true) ∧
      (s.orangeBox = false → s'.orangeBox = false)) ∧
    (∀ fuel (s : QState) m (idVal : Int), s.goldSource = false →
      readInt32At m 0 = some (-2) → m.get? 4 ≠ some 0x41 →
      readInt32At m 4 = some idVal → windowEq m 9 = true →
      onMessage decomp crcFn reqHeader (fuel + 1) s m =
        runList (onMessage decomp crcFn reqHeader fuel)
          { s with isCompressed := decide (idVal < 0), goldSource := true,
                   packets := [] }
          (packetValues s.packets ++ [m])) ∧
    (∀ fuel (s : QState) m (idVal : Int) (total : Nat), s.goldSource = false →
      s.orangeBox = true →
      readInt32At m 0 = some (-2) → m.get? 4 ≠ some 0x41 →
      readInt32At m 4 = some idVal → windowEq m 9 = false →
      readUint8At m 8 = some total → readUint8At m 9 = some 0 →
      windowEq m (if idVal < 0 then 18 else 10) = true →
      onMessage decomp crcFn reqHeader (fuel + 1) s m =
        runList (onMessage decomp crcFn reqHeader fuel)
          { s with isCompressed := decide (idVal < 0), orangeBox := false,
                   packets := [] }
          (packetValues s.packets ++ [m])) ∧
    (∀ (step : QState → Msg → Outcome) (s : QState), s.isCompressed = true →
      s.orangeBox = true → decomp (assemblePayload s) = none →
      assembleAndDispatch decomp crcFn step s =
        runList step { s with orangeBox := false, packets := [] }
          (packetValues s.packets)) := by
  refine ⟨fun fuel => mono_onMessage decomp crcFn reqHeader fuel, ?_, ?_, ?_⟩
  · intro fuel s m idVal hgs hv hch hid hw
    have hch2 : ¬ (m[4]? = some 0x41) := by simpa using hch
    simp [onMessage, onMessageStep, hv, hch2, handleMultiPacket, hid, hgs, hw]
  · intro fuel s m idVal total hgs hob hv hch hid hw9 h8 h9 hwob
    have hch2 : ¬ (m[4]? = some 0x41) := by simpa using hch
    simp [onMessage, onMessageStep, hv, hch2, handleMultiPacket, hid, hgs, hw9,
      handleSource, h8, h9, hob, hwob]
  · intro step s hc hob hdec
    simp [assembleAndDispatch, hc, hdec, hob]

/-- Witness for C6: the decompression-failure demotion site evaluated at a
concrete state. -/
theorem dialect_demotion_monotone_witness :
    assembleAndDispatch noDecomp (constCrc 0) stuckStep
        { initState with isCompressed := true } =
      runList stuckStep
        { initState with isCompressed := true, orangeBox := false, packets := [] }
        (packetValues ({ initState with isCompressed := true } : QState).packets) :=
  (dialect_demotion_monotone noDecomp (constCrc 0) 0x54).2.2.2 stuckStep
    { initState with isCompressed := true } rfl rfl rfl

/-- The total packet count declared by a (modern-dialect) multi-packet
datagram: its ninth octet. -/
def declaredTotal (m : Msg) : Nat := (readUint8At m 8).getD 0

/-- The packet number declared by a (modern-dialect) multi-packet datagram:
its tenth octet. -/
def declaredNumber (m : Msg) : Nat := (readUint8At m 9).getD 0

/-- A well-formed modern-dialect, uncompressed multi-packet fragment
consistently declaring total `T`: multi-packet marker, not challenge-shaped,
non-negative response id (uncompressed), neither dialect-detection window
matching, total `T`, packet number below `T`, and long enough for the
maximum-packet-size read. -/
def goodFragment (T : Nat) (m : Msg) : Prop :=
  readInt32At m 0 = some (-2) ∧
  m.get? 4 ≠ some 0x41 ∧
  0 ≤ (readInt32At m 4).getD (-1) ∧
  windowEq m 9 = false ∧
  windowEq m 10 = false ∧
  readUint8At m 8 = some T ∧
  readUint8At m 9 = some (declaredNumber m) ∧
  declaredNumber m < T ∧
  (readUint16At m 10).isSome = true

instance goodFragmentDecidable (T : Nat) (m : Msg) :
    Decidable (goodFragment T m) := by
  unfold goodFragment
  exact inferInstance

theorem dispatch_isTerminal (s : QState) (payload : Msg) :
    (dispatch s payload).isTerminal = true := by
  unfold dispatch
  cases parseResponse payload <;> rfl

theorem isTerminal_ne_waiting {out : Outcome} (h : out.isTerminal = true) :
    ∀ s', out ≠ .waiting s' := by
  cases out <;> simp [Outcome.isTerminal] at h ⊢

theorem upsert_keys_subset (k : Nat) (v : Msg) :
    ∀ l : List (Nat × Msg), (upsert k v l).map Prod.fst ⊆ k :: l.map Prod.fst := by
  intro l x hx
  obtain ⟨p, hp, hpe⟩ := List.mem_map.mp hx
  rcases mem_upsert hp with h' | h'
  · exact List.mem_cons_of_mem _ (hpe ▸ List.mem_map_of_mem Prod.fst h')
  · rw [← hpe, h']
    exact List.mem_cons_self _ _

theorem upsert_keys_nodup {k : Nat} {v : Msg} :
    ∀ {l : List (Nat × Msg)}, (l.map Prod.fst).Nodup →
      ((upsert k v l).map Prod.fst).Nodup
  | [], _ => by simp [upsert]
  | (k', v') :: rest, h => by
    rw [List.map_cons, List.nodup_cons] at h
    by_cases hk : k = k'
    · simp only [upsert, if_pos hk, List.map_cons, List.nodup_cons]
      exact ⟨hk ▸ h.1, h.2⟩
    · simp only [upsert, if_neg hk, List.map_cons, List.nodup_cons]
      refine ⟨fun hc => ?_, upsert_keys_nodup h.2⟩
      rcases List.mem_cons.mp (upsert_keys_subset k v rest hc) with h' | h'
      · exact hk h'.symm
      · exact h.1 h'

theorem upsert_length_le {k : Nat} {v : Msg} {l : List (Nat × Msg)} {T : Nat}
    (hnd : (l.map Prod.fst).Nodup) (hk : k < T) (hb : ∀ p ∈ l, p.1 < T) :
    (upsert k v l).length ≤ T := by
  have hnd' : ((upsert k v l).map Prod.fst).Nodup := upsert_keys_nodup hnd
  have hsub : (upsert k v l).map Prod.fst ⊆ List.range T := by
    intro x hx
    rcases List.mem_cons.mp (upsert_keys_subset k v l hx) with h' | h'
    · exact List.mem_range.mpr (h' ▸ hk)
    · obtain ⟨p, hp, hpe⟩ := List.mem_map.mp h'
      exact List.mem_range.mpr (hpe ▸ hb p hp)
  have := (List.subperm_of_subset hnd' hsub).length_le
  simpa using this

/-- The state invariant maintained across a modern-dialect uncompressed run:
stable (undemoted) flags, distinct buffered keys, all below the total. -/
def ModernInv (T : Nat) (s : QState) : Prop :=
  s.goldSource = false ∧ s.orangeBox = true ∧
  (s.packets.map Prod.fst).Nodup ∧ ∀ p ∈ s.packets, p.1 < T

/-- On a `goodFragment`, the handler takes exactly the plain buffering path:
store under the declared packet number, then either dispatch (when the
buffered count reaches the declared total) or keep waiting. -/
theorem good_step (decomp : Msg → Option Msg) (crcFn : Msg → Int)
    (reqHeader : Nat) (step : QState → Msg → Outcome) (s : QState) (m : Msg)
    (T : Nat) (hgs : s.goldSource = false) (hob : s.orangeBox = true)
    (hg : goodFragment T m) :
    onMessageStep decomp crcFn reqHeader step s m =
      if (upsert (declaredNumber m) m s.packets).length == T then
        dispatch
          { s with isCompressed := false,
                   packets := upsert (declaredNumber m) m s.packets }
          (assemblePayload
            { s with isCompressed := false,
                     packets := upsert (declaredNumber m) m s.packets })
      else
        .waiting
          { s with isCompressed := false,
                   packets := upsert (declaredNumber m) m s.packets } := by
  obtain ⟨hv, hch, hid0, hw9, hw10, h8, h9, hnum, h16⟩ := hg
  obtain ⟨v, hid, hv0⟩ : ∃ v, readInt32At m 4 = some v ∧ 0 ≤ v := by
    cases hcase : readInt32At m 4 with
    | none =>
      rw [hcase] at hid0
      exact absurd hid0 (by decide)
    | some v =>
      rw [hcase] at hid0
      exact ⟨v, rfl, by simpa using hid0⟩
  have hcomp : decide (v < 0) = false := decide_eq_false (not_lt.mpr hv0)
  obtain ⟨w, h16'⟩ := Option.isSome_iff_exists.mp h16
  have hch2 : ¬ (m[4]? = some 0x41) := by simpa using hch
  simp [onMessageStep, hv, hch2, handleMultiPacket, hid, hgs, hw9, hcomp,
    handleSource, h8, h9, hob, hw10, h16', handleSourceTail, storeAndCheck,
    assembleAndDispatch]

theorem good_step_inv (decomp : Msg → Option Msg) (crcFn : Msg → Int)
    (reqHeader : Nat) (step : QState → Msg → Outcome) (s : QState) (m : Msg)
    (T : Nat) (hInv : ModernInv T s) (hg : goodFragment T m) :
    (∃ s₂, onMessageStep decomp crcFn reqHeader step s m = .waiting s₂ ∧
      ModernInv T s₂ ∧ s₂.packets.length < T) ∨
    ((onMessageStep decomp crcFn reqHeader step s m).isTerminal = true ∧
      (upsert (declaredNumber m) m s.packets).length = T) := by
  obtain ⟨hgs, hob, hnd, hb⟩ := hInv
  rw [good_step decomp crcFn reqHeader step s m T hgs hob hg]
  by_cases hlen : (upsert (declaredNumber m) m s.packets).length = T
  · rw [if_pos (by simpa using hlen)]
    exact Or.inr ⟨dispatch_isTerminal _ _, hlen⟩
  · rw [if_neg (by simpa using hlen)]
    refine Or.inl ⟨_, rfl, ⟨hgs, hob, upsert_keys_nodup hnd, ?_⟩, ?_⟩
    · intro p hp
      rcases mem_upsert hp with h' | h'
      · exact hb p h'
      · rw [h']
        exact hg.2.2.2.2.2.2.2.1
    · exact Nat.lt_of_le_of_ne (upsert_length_le hnd hg.2.2.2.2.2.2.2.1 hb) hlen

theorem runList_modern_inv (decomp : Msg → Option Msg) (crcFn : Msg → Int)
    (reqHeader : Nat) (fuel : Nat) (T : Nat) :
    ∀ (msgs : List Msg) (s s' : QState), ModernInv T s →
      s.packets.length < T → (∀ m ∈ msgs, goodFragment T m) →
      runList (onMessage decomp crcFn reqHeader (fuel + 1)) s msgs = .waiting s' →
      ModernInv T s' ∧ s'.packets.length < T
  | [], s, s', hInv, hlt, _, h => by
    simp only [runList] at h
    injection h with h'
    subst h'
    exact ⟨hInv, hlt⟩
  | m :: rest, s, s', hInv, hlt, hmsgs, h => by
    simp only [runList] at h
    rcases good_step_inv decomp crcFn reqHeader
        (onMessage decomp crcFn reqHeader fuel) s m T hInv (hmsgs m (by simp))
      with ⟨s₂, hstep, hInv₂, hlt₂⟩ | ⟨hterm, -⟩
    · rw [show onMessage decomp crcFn reqHeader (fuel + 1) s m =
          onMessageStep decomp crcFn reqHeader
            (onMessage decomp crcFn reqHeader fuel) s m from rfl, hstep] at h
      exact runList_modern_inv decomp crcFn reqHeader fuel T rest s₂ s' hInv₂
        hlt₂ (fun v hv => hmsgs v (by simp [hv])) h
    · rw [show onMessage decomp crcFn reqHeader (fuel + 1) s m =
          onMessageStep decomp crcFn reqHeader
            (onMessage decomp crcFn reqHeader fuel) s m from rfl] at h
      cases hout : onMessageStep decomp crcFn reqHeader
          (onMessage decomp crcFn reqHeader fuel) s m with
      | waiting s₂ =>
        rw [hout] at hterm
        simp [Outcome.isTerminal] at hterm
      | resolved r s₁ => rw [hout] at h; simp at h
      | rejected e s₁ => rw [hout] at h; simp at h
      | thrown e s₁ => rw [hout] at h; simp at h
      | outOfFuel => rw [hout] at h; simp at h

/-- Counterexample for C7: a single multi-packet datagram declaring a total
packet count of 0 with packet number 0 is buffered, leaving one buffered
packet — MORE than the most recently declared total of 0 — and reassembly is
skipped (the handler keeps waiting), because the completion check is an
equality test. -/
theorem buffered_count_bounded_cex :
    onMessage noDecomp (constCrc 0) 0x56 1 initState
        [254, 255, 255, 255, 0, 0, 0, 0, 0, 0, 0, 0] =
      .waiting
        { initState with
          packets := [(0, [254, 255, 255, 255, 0, 0, 0, 0, 0, 0, 0, 0])] } ∧
    declaredTotal [254, 255, 255, 255, 0, 0, 0, 0, 0, 0, 0, 0] = 0 ∧
    ({ initState with
       packets := [(0, [254, 255, 255, 255, 0, 0, 0, 0, 0, 0, 0, 0])] } :
        QState).packets.length = 1 := by
  decide

/-- C7 (amended).  For datagram streams whose multi-packet fragments are
well-formed and consistent — every fragment declares the same total `T ≥ 1`
and a packet number below `T`, in the modern uncompressed framing with no
demotion probe firing — the number of distinct buffered sequence numbers
never exceeds (indeed stays below, at every still-waiting point) the declared
total, and the datagram whose insertion makes the buffered count reach `T`
immediately produces a settlement (reassembly, dispatch) rather than further
buffering.  (With inconsistent declared totals the invariant fails, see the
counterexample.) -/
theorem buffered_count_bounded (decomp : Msg → Option Msg) (crcFn : Msg → Int)
    (reqHeader : Nat) (fuel : Nat) (T : Nat) (msgs : List Msg) (s' : QState)
    (hT : 1 ≤ T) (hmsgs : ∀ m ∈ msgs, goodFragment T m)
    (hrun : runList (onMessage decomp crcFn reqHeader (fuel + 1)) initState msgs =
      .waiting s') :
    s'.packets.length < T ∧
    (∀ m, goodFragment T m →
      (upsert (declaredNumber m) m s'.packets).length = T →
      (onMessage decomp crcFn reqHeader (fuel + 1) s' m).isTerminal = true) := by
  have hInit : ModernInv T initState :=
    ⟨rfl, rfl, by simp [initState], by simp [initState]⟩
  obtain ⟨hInv', hlt'⟩ := runList_modern_inv decomp crcFn reqHeader fuel T msgs
    initState s' hInit (by simpa [initState] using hT) hmsgs hrun
  refine ⟨hlt', fun m hg hfull => ?_⟩
  rw [show onMessage decomp crcFn reqHeader (fuel + 1) s' m =
      onMessageStep decomp crcFn reqHeader
        (onMessage decomp crcFn reqHeader fuel) s' m from rfl,
    good_step decomp crcFn reqHeader _ s' m T hInv'.1 hInv'.2.1 hg,
    if_pos (by simpa using hfull)]
  exact dispatch_isTerminal _ _

/-- Witness for C7 (amended): a consistent two-fragment stream of which the
first fragment is delivered; the buffered count stays below the total 2, and
delivering the second fragment settles the call. -/
theorem buffered_count_bounded_witness :
    (({ initState with
        packets := [(0, [254, 255, 255, 255, 0, 0, 0, 0, 2, 0, 0, 0])] } :
          QState).packets.length < 2) ∧
    (onMessage noDecomp (constCrc 0) 0x56 1
        { initState with
          packets := [(0, [254, 255, 255, 255, 0, 0, 0, 0, 2, 0, 0, 0])] }
        [254, 255, 255, 255, 0, 0, 0, 0, 2, 1, 0, 0]).isTerminal = true := by
  have h := buffered_count_bounded noDecomp (constCrc 0) 0x56 0 2
    [[254, 255, 255, 255, 0, 0, 0, 0, 2, 0, 0, 0]]
    { initState with
      packets := [(0, [254, 255, 255, 255, 0, 0, 0, 0, 2, 0, 0, 0])] }
    (by decide) (by decide) (by decide)
  exact ⟨h.1, h.2 [254, 255, 255, 255, 0, 0, 0, 0, 2, 1, 0, 0]
    (by decide) (by decide)⟩

/-- First fragment of a compressed two-packet response (24 bytes): id with the
compression bit set, total 2, number 0; neither detection window matches, so
the old framing is only discoverable by a decompression failure. -/
def c8frag0 : Msg :=
  [254, 255, 255, 255, 0, 0, 0, 128, 2, 0, 7, 7, 1, 0, 0, 0, 5, 0, 0, 0,
   65, 66, 67, 68]

/-- Second fragment of the compressed response: total 2, number 1. -/
def c8frag1 : Msg :=
  [254, 255, 255, 255, 0, 0, 0, 128, 2, 1, 7, 7, 100, 101, 102]

/-- The payload assembled under the Orange Box framing assumption (first
fragment starts at offset 20, second at 12). -/
def c8assembledModern : Msg := [65, 66, 67, 68, 100, 101, 102]

/-- The payload assembled after the Orange Box assumption is demoted (first
fragment starts at offset 18, second at 10). -/
def c8assembledLegacy : Msg := [0, 0, 65, 66, 67, 68, 7, 7, 100, 101, 102]

/-- The decompressed payload: a rules response with one pair ("a", "b"). -/
def c8rulesPayload : Msg := [255, 255, 255, 255, 0x45, 1, 0, 97, 0, 98, 0]

/-- State after buffering `c8frag0` under the Orange Box assumption. -/
def c8s1 : QState :=
  { retryCount := 0, packets := [(0, c8frag0)], isCompressed := true,
    crc32CheckSum := 5, goldSource := false, orangeBox := true, sent := [] }

/-- State at reassembly completion under the Orange Box assumption. -/
def c8s2 : QState := { c8s1 with packets := [(0, c8frag0), (1, c8frag1)] }

/-- State entering the reload after the decompression-failure demotion. -/
def c8s3 : QState :=
  { retryCount := 0, packets := [], isCompressed := true, crc32CheckSum := 5,
    goldSource := false, orangeBox := false, sent := [] }

/-- State after re-buffering `c8frag0` under the demoted framing (the
checksum is re-read from its corrected offset). -/
def c8s4 : QState :=
  { c8s3 with packets := [(0, c8frag0)], crc32CheckSum := 327680 }

/-- State at reassembly completion under the demoted framing. -/
def c8s5 : QState := { c8s4 with packets := [(0, c8frag0), (1, c8frag1)] }

/-- C8.  On the concrete compressed two-fragment stream: if decompression
fails while the Orange Box (maximum-packet-size) assumption is still active,
the handler demotes it and reprocesses the buffered raw datagrams from
scratch; when the reprocessed payload then decompresses and its checksum
matches, the call resolves with the correct decoded result having sent no
request on the network (`sent` stays empty) — and if decompression fails
again with the assumption already demoted, the call fails with the
decompression error. -/
theorem decompression_fallback (decomp : Msg → Option Msg) (crcFn : Msg → Int)
    (reqHeader : Nat) :
    (decomp c8assembledModern = none →
      decomp c8assembledLegacy = some c8rulesPayload →
      crcFn c8rulesPayload = 327680 →
      runList (onMessage decomp crcFn reqHeader 2) initState [c8frag0, c8frag1] =
        .resolved (.rules [([97], [98])]) c8s5 ∧
      c8s5.sent = [] ∧ c8s5.orangeBox = false) ∧
    (decomp c8assembledModern = none → decomp c8assembledLegacy = none →
      runList (onMessage decomp crcFn reqHeader 2) initState [c8frag0, c8frag1] =
        .thrown .decompressionError c8s5) := by
  have einner : ∀ O : Outcome,
      assembleAndDispatch decomp crcFn (onMessage decomp crcFn reqHeader 0)
        c8s5 = O →
      runList (onMessage decomp crcFn reqHeader 1) c8s3 [c8frag0, c8frag1] =
        (match O with
         | .waiting s' => runList (onMessage decomp crcFn reqHeader 1) s' []
         | out => out) := by
    intro O hO
    calc runList (onMessage decomp crcFn reqHeader 1) c8s3 [c8frag0, c8frag1] =
        (match assembleAndDispatch decomp crcFn
            (onMessage decomp crcFn reqHeader 0) c8s5 with
         | .waiting s' => runList (onMessage decomp crcFn reqHeader 1) s' []
         | out => out) := rfl
      _ = _ := by rw [hO]
  have eouter : ∀ O : Outcome,
      assembleAndDispatch decomp crcFn (onMessage decomp crcFn reqHeader 1)
        c8s2 = O →
      runList (onMessage decomp crcFn reqHeader 2) initState [c8frag0, c8frag1] =
        (match O with
         | .waiting s' => runList (onMessage decomp crcFn reqHeader 2) s' []
         | out => out) := by
    intro O hO
    calc runList (onMessage decomp crcFn reqHeader 2) initState [c8frag0, c8frag1] =
        (match assembleAndDispatch decomp crcFn
            (onMessage decomp crcFn reqHeader 1) c8s2 with
         | .waiting s' => runList (onMessage decomp crcFn reqHeader 2) s' []
         | out => out) := rfl
      _ = _ := by rw [hO]
  have hmodern : ∀ h1 : decomp c8assembledModern = none,
      assembleAndDispatch decomp crcFn (onMessage decomp crcFn reqHeader 1)
        c8s2 =
      runList (onMessage decomp crcFn reqHeader 1) c8s3 [c8frag0, c8frag1] := by
    intro h1
    calc assembleAndDispatch decomp crcFn (onMessage decomp crcFn reqHeader 1) c8s2 =
        (match decomp c8assembledModern with
         | none => runList (onMessage decomp crcFn reqHeader 1) c8s3
             [c8frag0, c8frag1]
         | some d =>
           if crcFn d == 5 then dispatch c8s2 d
           else .thrown (.checksumMismatch 5 (crcFn d)) c8s2) := rfl
      _ = _ := by rw [h1]
  constructor
  · intro h1 h2 h3
    have hlegacy : assembleAndDispatch decomp crcFn
        (onMessage decomp crcFn reqHeader 0) c8s5 =
        .resolved (.rules [([97], [98])]) c8s5 := by
      calc assembleAndDispatch decomp crcFn (onMessage decomp crcFn reqHeader 0) c8s5 =
          (match decomp c8assembledLegacy with
           | none => .thrown .decompressionError c8s5
           | some d =>
             if crcFn d == 327680 then dispatch c8s5 d
             else .thrown (.checksumMismatch 327680 (crcFn d)) c8s5) := rfl
        _ = if crcFn c8rulesPayload == 327680 then dispatch c8s5 c8rulesPayload
            else .thrown (.checksumMismatch 327680 (crcFn c8rulesPayload)) c8s5 := by
            rw [h2]
        _ = .resolved (.rules [([97], [98])]) c8s5 := by
            rw [h3]
            rfl
    have hrun := einner _ hlegacy
    have houter := eouter _ ((hmodern h1).trans hrun)
    exact ⟨by rw [houter], rfl, rfl⟩
  · intro h1 h2
    have hlegacy : assembleAndDispatch decomp crcFn
        (onMessage decomp crcFn reqHeader 0) c8s5 =
        .thrown .decompressionError c8s5 := by
      calc assembleAndDispatch decomp crcFn (onMessage decomp crcFn reqHeader 0) c8s5 =
          (match decomp c8assembledLegacy with
           | none => .thrown .decompressionError c8s5
           | some d =>
             if crcFn d == 327680 then dispatch c8s5 d
             else .thrown (.checksumMismatch 327680 (crcFn d)) c8s5) := rfl
        _ = .thrown .decompressionError c8s5 := by rw [h2]
    have hrun := einner _ hlegacy
    have houter := eouter _ ((hmodern h1).trans hrun)
    rw [houter]

/-- A concrete decompressor succeeding exactly on the legacy-framed assembly. -/
def c8decomp : Msg → Option Msg :=
  fun b => if b == c8assembledLegacy then some c8rulesPayload else none

/-- Witness for C8: the fallback run with the concrete decompressor and
checksum resolves with the decoded rules and an empty send log. -/
theorem decompression_fallback_witness :
    runList (onMessage c8decomp (constCrc 327680) 0x56 2) initState
        [c8frag0, c8frag1] =
      .resolved (.rules [([97], [98])]) c8s5 ∧
    c8s5.sent = [] ∧ c8s5.orangeBox = false :=
  (decompression_fallback c8decomp (constCrc 327680) 0x56).1
    (by decide) (by decide) (by decide)

end OpenGSQ
